import Mathlib

/-!
# Verification of the exchange-rate cache/fallback pipeline of `src/server.js`

This file shallowly embeds the exchange-rate acquisition pipeline of the
VPS remaining-value server: the in-memory cache `exchangeRateCache`, the
ordered provider list `EXCHANGE_RATE_APIS`, the resolver
`fetchExchangeRate(from, to)` and the HTTP handler for
`GET /api/exchange-rate`.

Modelling choices:
* JavaScript numbers extracted from a parsed JSON body are modelled by
  `RateVal`: a finite rational, `inf` (+Infinity, which `JSON.parse` can
  produce from an overflowing literal such as `1e999`), `ninf` (-Infinity)
  or `nan`.  The extraction `data.rates?.[to]` yields `Option RateVal`
  (`none` for a missing field, i.e. `undefined`).
* Network I/O and JSON parsing of one provider are summarised by a
  `ProviderOutcome`: either the promise rejected / `JSON.parse` threw
  (`err`), or a value was extracted (`parsed`).  A resolution call receives
  a function `respond : String → ProviderOutcome` giving, per provider
  name, what that provider's fetch would produce during this call.
* `Date.now()` is an explicit integer parameter `now` (ms since epoch).
* The mutable cache object is threaded explicitly: the resolver returns
  its result together with the cache state after the call.
-/

namespace Server

/-- A JavaScript number as it can appear in the `rates` field of a parsed
JSON body: a finite value, positive or negative Infinity, or NaN. -/
inductive RateVal where
  | num (q : ℚ)
  | inf
  | ninf
  | nan
  deriving DecidableEq, Repr

/-- JavaScript truthiness of the extracted rate (`rate` in `if (rate && rate > 0)`):
`undefined`, `0` and `NaN` are falsy, every other number is truthy. -/
def truthy : Option RateVal → Bool
  | none => false
  | some (.num q) => q ≠ 0
  | some .inf => true
  | some .ninf => true
  | some .nan => false

/-- The JavaScript comparison `rate > 0`: false for NaN and -Infinity,
true for +Infinity and for finite values above zero. -/
def gtZero : RateVal → Bool
  | .num q => 0 < q
  | .inf => true
  | .ninf => false
  | .nan => false

/-- The acceptance test `if (rate && rate > 0)` on the extracted rate. -/
def accepts : Option RateVal → Bool
  | none => false
  | some v => truthy (some v) && gtZero v

/-- `parseFloat(rate.toFixed(4))`: `Number.prototype.toFixed` picks the
integer `n` minimising `|n / 10^4 - x|`, taking the larger `n` on a tie,
i.e. `⌊x·10^4 + 1/2⌋`; `parseFloat` reads the decimal string back.
`Infinity.toFixed(4)` is `"Infinity"` and NaN stays NaN, so the
non-finite values are fixed points. -/
def roundTo4 : RateVal → RateVal
  | .num q => .num ((⌊q * 10000 + 1/2⌋ : ℤ) / 10000)
  | .inf => .inf
  | .ninf => .ninf
  | .nan => .nan

/-- One entry of `exchangeRateCache.data`:
`{ rate, timestamp, source }`. -/
structure CacheEntry where
  rate : RateVal
  timestamp : ℤ
  source : String
  deriving DecidableEq, Repr

/-- `exchangeRateCache.data`, a JavaScript object keyed by the pair key:
at most one entry per key, by construction. -/
def Cache : Type := String → Option CacheEntry

/-- The empty cache `{}`. -/
def emptyCache : Cache := fun _ => none

/-- `exchangeRateCache.data[cacheKey] = result`: whole-entry replacement. -/
def updateCache (c : Cache) (key : String) (e : CacheEntry) : Cache :=
  fun k => if k = key then some e else c k

/-- `exchangeRateCache.duration`: `60 * 60 * 1000` ms (one hour). -/
def cacheDuration : ℤ := 60 * 60 * 1000

/-- The `cacheKey` built at the top of `fetchExchangeRate`. -/
def pairKey (fromCur toCur : String) : String := fromCur ++ "-" ++ toCur

/-- The names of `EXCHANGE_RATE_APIS`, in declared order. -/
def EXCHANGE_RATE_APIS : List String :=
  ["exchangerate-api.com", "open.er-api.com", "api.frankfurter.app"]

/-- What one provider's fetch/parse produces during a call: `err` when the
HTTPS request failed or `JSON.parse` threw (the promise rejected), or
`parsed r` when `api.parse(data, to)` evaluated to `r` (`none` meaning the
field was missing, i.e. `undefined`). -/
inductive ProviderOutcome where
  | err
  | parsed (r : Option RateVal)
  deriving DecidableEq, Repr

/-- A provider attempt that does not produce an accepted rate: either the
fetch/parse threw, or the extracted value fails `rate && rate > 0`. -/
def failsOutcome : ProviderOutcome → Bool
  | .err => true
  | .parsed r => !(accepts r)

/-- The `for (const api of EXCHANGE_RATE_APIS)` loop body: try providers
in order, returning the first accepted rate (already rounded, as stored
into `result.rate`) together with the provider's name, or `none` when the
list is exhausted. -/
def tryProviders (respond : String → ProviderOutcome) :
    List String → Option (RateVal × String)
  | [] => none
  | api :: rest =>
    match respond api with
    | .err => tryProviders respond rest
    | .parsed r =>
      match r with
      | none => tryProviders respond rest
      | some v =>
        if truthy (some v) && gtZero v then
          some (roundTo4 v, api)
        else
          tryProviders respond rest

/-- What `fetchExchangeRate` produces: a resolved rate object
with rate, timestamp, source and fromCache fields, or the single error it
throws (所有汇率 API 源均不可用且无可用缓存, the NoRateAvailable error). -/
structure FetchResult where
  rate : RateVal
  timestamp : ℤ
  source : String
  fromCache : Bool
  deriving DecidableEq, Repr

/-- Result of a resolution call: success or the NoRateAvailable throw. -/
inductive ResolveResult where
  | ok (r : FetchResult)
  | noRate
  deriving DecidableEq, Repr

/-- The part of `fetchExchangeRate` after the fresh-cache check failed:
run the provider loop; on first acceptance round to 4 decimals, write the
cache and return `fromCache: false`; on exhaustion return the previously
read entry (`cached`) with `fromCache: true` when it exists, otherwise
throw. -/
def resolveViaProviders (key : String) (cached : Option CacheEntry)
    (now : ℤ) (cache : Cache) (respond : String → ProviderOutcome) :
    ResolveResult × Cache :=
  match tryProviders respond EXCHANGE_RATE_APIS with
  | some (v, apiName) =>
    (.ok ⟨v, now, apiName, false⟩, updateCache cache key ⟨v, now, apiName⟩)
  | none =>
    match cached with
    | some c => (.ok ⟨c.rate, c.timestamp, c.source, true⟩, cache)
    | none => (.noRate, cache)

/-- `fetchExchangeRate(from, to)`: read the cache entry for the pair key;
if it exists and `now - cached.timestamp < exchangeRateCache.duration`
return it with `fromCache: false`; otherwise enter the provider loop. -/
def fetchExchangeRate (fromCur toCur : String) (now : ℤ) (cache : Cache)
    (respond : String → ProviderOutcome) : ResolveResult × Cache :=
  let key := pairKey fromCur toCur
  match cache key with
  | some cached =>
    if now - cached.timestamp < cacheDuration then
      (.ok ⟨cached.rate, cached.timestamp, cached.source, false⟩, cache)
    else
      resolveViaProviders key (some cached) now cache respond
  | none => resolveViaProviders key none now cache respond

/-- The supported currency list of `GET /api/exchange-rate`. -/
def supportedCurrencies : List String :=
  ["USD", "CNY", "EUR", "GBP", "JPY", "KRW"]

/-- The HTTP responses the `GET /api/exchange-rate` handler can send. -/
inductive HttpResponse where
  | badRequest
  | identity (base target : String)
  | okData (base target : String) (r : FetchResult)
  | serverError
  deriving DecidableEq, Repr

/-- The `GET /api/exchange-rate` handler: apply the destructuring defaults
`from = 'USD'`, `to = 'CNY'` (taken when the query parameter is absent),
reject unsupported codes with 400, short-circuit identical currencies with
`rate 1 / source 'direct'`, and otherwise delegate to
`fetchExchangeRate`, turning its throw into a 500 response. -/
def handleExchangeRate (qFrom qTo : Option String) (now : ℤ) (cache : Cache)
    (respond : String → ProviderOutcome) : HttpResponse × Cache :=
  let fromCur := qFrom.getD "USD"
  let toCur := qTo.getD "CNY"
  if !(supportedCurrencies.contains fromCur) || !(supportedCurrencies.contains toCur) then
    (.badRequest, cache)
  else if fromCur = toCur then
    (.identity fromCur toCur, cache)
  else
    match fetchExchangeRate fromCur toCur now cache respond with
    | (.ok r, cache') => (.okData fromCur toCur r, cache')
    | (.noRate, cache') => (.serverError, cache')

/-! ## Basic facts about the provider loop -/

lemma accepts_some (v : RateVal) :
    accepts (some v) = (truthy (some v) && gtZero v) := rfl

lemma tryProviders_cons_err (respond : String → ProviderOutcome)
    (api : String) (rest : List String) (h : respond api = .err) :
    tryProviders respond (api :: rest) = tryProviders respond rest := by
  simp [tryProviders, h]

lemma tryProviders_cons_reject (respond : String → ProviderOutcome)
    (api : String) (rest : List String) (r : Option RateVal)
    (h : respond api = .parsed r) (hr : accepts r = false) :
    tryProviders respond (api :: rest) = tryProviders respond rest := by
  cases r with
  | none => simp [tryProviders, h]
  | some v =>
    rw [accepts_some] at hr
    simp [tryProviders, h, hr]

lemma tryProviders_cons_accept (respond : String → ProviderOutcome)
    (api : String) (rest : List String) (v : RateVal)
    (h : respond api = .parsed (some v)) (hv : accepts (some v) = true) :
    tryProviders respond (api :: rest) = some (roundTo4 v, api) := by
  rw [accepts_some] at hv
  simp [tryProviders, h, hv]

lemma tryProviders_append_of_fails (respond : String → ProviderOutcome)
    (pre l : List String)
    (h : ∀ a ∈ pre, failsOutcome (respond a) = true) :
    tryProviders respond (pre ++ l) = tryProviders respond l := by
  induction pre with
  | nil => rfl
  | cons a pre ih =>
    have ha : failsOutcome (respond a) = true := h a (List.mem_cons_self a pre)
    have hrest : ∀ b ∈ pre, failsOutcome (respond b) = true :=
      fun b hb => h b (List.mem_cons_of_mem a hb)
    rw [List.cons_append]
    cases hr : respond a with
    | err => rw [tryProviders_cons_err respond a _ hr]; exact ih hrest
    | parsed r =>
      have hrej : accepts r = false := by
        rw [hr] at ha
        simpa [failsOutcome] using ha
      rw [tryProviders_cons_reject respond a _ r hr hrej]
      exact ih hrest

lemma tryProviders_eq_none_iff (respond : String → ProviderOutcome)
    (l : List String) :
    tryProviders respond l = none ↔ ∀ a ∈ l, failsOutcome (respond a) = true := by
  induction l with
  | nil => simp [tryProviders]
  | cons a rest ih =>
    constructor
    · intro h b hb
      rcases List.mem_cons.mp hb with hb | hb
      · subst hb
        cases hr : respond b with
        | err => simp [failsOutcome]
        | parsed r =>
          cases r with
          | none => simp [failsOutcome, accepts]
          | some v =>
            by_cases hv : (truthy (some v) && gtZero v) = true
            · exfalso
              rw [tryProviders_cons_accept respond b rest v hr (by rw [accepts_some]; exact hv)] at h
              exact Option.noConfusion h
            · simp only [failsOutcome, accepts, Bool.not_eq_true']
              exact Bool.eq_false_iff.mpr hv
      · cases hr : respond a with
        | err =>
          rw [tryProviders_cons_err respond a rest hr] at h
          exact ih.mp h b hb
        | parsed r =>
          by_cases hv : accepts r = true
          · exfalso
            cases r with
            | none => simp [accepts] at hv
            | some v =>
              rw [tryProviders_cons_accept respond a rest v hr hv] at h
              exact Option.noConfusion h
          · rw [tryProviders_cons_reject respond a rest r hr
              (Bool.eq_false_iff.mpr hv)] at h
            exact ih.mp h b hb
    · intro h
      have ha : failsOutcome (respond a) = true := h a (List.mem_cons_self a rest)
      have hrest : ∀ b ∈ rest, failsOutcome (respond b) = true :=
        fun b hb => h b (List.mem_cons_of_mem a hb)
      cases hr : respond a with
      | err => rw [tryProviders_cons_err respond a rest hr]; exact ih.mpr hrest
      | parsed r =>
        have hrej : accepts r = false := by
          rw [hr] at ha
          simpa [failsOutcome] using ha
        rw [tryProviders_cons_reject respond a rest r hr hrej]
        exact ih.mpr hrest

/-- A sample cache holding one entry for the pair USD-CNY, written at
time 0 by the second provider. -/
def sampleCache : Cache :=
  updateCache emptyCache "USD-CNY" ⟨RateVal.num 7, 0, "open.er-api.com"⟩

/-- C1, counterexample: the acceptance test `if (rate && rate > 0)` does
not require finiteness.  With the extracted rate +Infinity (which
`JSON.parse` produces from an overflowing numeric literal), the first
provider's result is accepted, returned, and written to the cache —
contradicting the claim that a non-finite rate is never accepted. -/
theorem infinity_accepted_counterexample :
    accepts (some RateVal.inf) = true
    ∧ (fetchExchangeRate "USD" "CNY" 0 emptyCache
        (fun _ => ProviderOutcome.parsed (some RateVal.inf))).1
      = ResolveResult.ok ⟨RateVal.inf, 0, "exchangerate-api.com", false⟩
    ∧ (fetchExchangeRate "USD" "CNY" 0 emptyCache
        (fun _ => ProviderOutcome.parsed (some RateVal.inf))).2 "USD-CNY"
      = some ⟨RateVal.inf, 0, "exchangerate-api.com"⟩ :=
  ⟨rfl, rfl, rfl⟩

/-- C1 (amended): during the provider loop, an extracted rate is accepted
iff it passes `rate && rate > 0`, i.e. iff it is a finite number strictly
greater than zero or +Infinity; every rejected response (non-positive,
NaN, -Infinity, missing) advances the loop to the next provider, and an
accepted one ends the loop with the rounded rate and this provider's
name. -/
theorem accept_condition_characterisation
    (respond : String → ProviderOutcome) (api : String) (rest : List String)
    (r : Option RateVal) (h : respond api = ProviderOutcome.parsed r) :
    (accepts r = true
      ↔ (∃ q : ℚ, r = some (RateVal.num q) ∧ 0 < q) ∨ r = some RateVal.inf)
    ∧ (accepts r = false →
        tryProviders respond (api :: rest) = tryProviders respond rest)
    ∧ (∀ v, r = some v → accepts r = true →
        tryProviders respond (api :: rest) = some (roundTo4 v, api)) := by
  refine ⟨?_, ?_, ?_⟩
  · cases r with
    | none => simp [accepts]
    | some v =>
      cases v with
      | num q =>
        simp only [accepts, truthy, gtZero, Bool.and_eq_true, decide_eq_true_eq,
          Option.some.injEq, RateVal.num.injEq]
        constructor
        · rintro ⟨-, hq⟩
          exact Or.inl ⟨q, rfl, hq⟩
        · rintro (⟨q', hq', hpos⟩ | hbad)
          · subst hq'
            exact ⟨ne_of_gt hpos, hpos⟩
          · exact absurd hbad (by simp)
      | inf => simp [accepts, truthy, gtZero]
      | ninf => simp [accepts, truthy, gtZero]
      | nan => simp [accepts, truthy, gtZero]
  · intro hf
    exact tryProviders_cons_reject respond api rest r h hf
  · intro v hv hacc
    subst hv
    exact tryProviders_cons_accept respond api rest v h hacc

/-- Witness for `accept_condition_characterisation` at the concrete
response carrying the finite rate 7. -/
theorem accept_condition_characterisation_witness :
    (accepts (some (RateVal.num 7)) = true
      ↔ (∃ q : ℚ, (some (RateVal.num 7) : Option RateVal) = some (RateVal.num q) ∧ 0 < q)
        ∨ (some (RateVal.num 7) : Option RateVal) = some RateVal.inf)
    ∧ (accepts (some (RateVal.num 7)) = false →
        tryProviders (fun _ => ProviderOutcome.parsed (some (RateVal.num 7))) ["a"]
          = tryProviders (fun _ => ProviderOutcome.parsed (some (RateVal.num 7))) [])
    ∧ (∀ v, (some (RateVal.num 7) : Option RateVal) = some v →
        accepts (some (RateVal.num 7)) = true →
        tryProviders (fun _ => ProviderOutcome.parsed (some (RateVal.num 7))) ["a"]
          = some (roundTo4 v, "a")) :=
  accept_condition_characterisation
    (fun _ => ProviderOutcome.parsed (some (RateVal.num 7))) "a" []
    (some (RateVal.num 7)) rfl

/-- C3: a cache entry younger than the one-hour window is returned as-is
(rate, timestamp, source) with `fromCache: false`, the cache is left
untouched, and the result does not depend on any provider (the statement
holds for every `respond`). -/
theorem fresh_cache_hit (fromCur toCur : String) (now : ℤ) (cache : Cache)
    (respond : String → ProviderOutcome) (c : CacheEntry)
    (hc : cache (pairKey fromCur toCur) = some c)
    (hfresh : now - c.timestamp < cacheDuration) :
    fetchExchangeRate fromCur toCur now cache respond
      = (ResolveResult.ok ⟨c.rate, c.timestamp, c.source, false⟩, cache) := by
  simp [fetchExchangeRate, hc, hfresh]

/-- Witness for `fresh_cache_hit`: one millisecond after the write. -/
theorem fresh_cache_hit_witness :
    fetchExchangeRate "USD" "CNY" 1 sampleCache (fun _ => ProviderOutcome.err)
      = (ResolveResult.ok ⟨RateVal.num 7, 0, "open.er-api.com", false⟩, sampleCache) :=
  fresh_cache_hit "USD" "CNY" 1 sampleCache (fun _ => ProviderOutcome.err)
    ⟨RateVal.num 7, 0, "open.er-api.com"⟩ rfl (by decide)

/-- C9: the freshness comparison `now - cached.timestamp < duration` is
strict, so an entry whose age is exactly one hour is not returned as a
fresh hit: the call proceeds into the provider-loop continuation
`resolveViaProviders`. -/
theorem freshness_boundary_stale (fromCur toCur : String) (now : ℤ)
    (cache : Cache) (respond : String → ProviderOutcome) (c : CacheEntry)
    (hc : cache (pairKey fromCur toCur) = some c)
    (hage : now - c.timestamp = cacheDuration) :
    fetchExchangeRate fromCur toCur now cache respond
      = resolveViaProviders (pairKey fromCur toCur) (some c) now cache respond := by
  have hnotlt : ¬(now - c.timestamp < cacheDuration) := by
    rw [hage]; exact lt_irrefl _
  simp [fetchExchangeRate, hc, hnotlt]

/-- Witness for `freshness_boundary_stale`: age exactly 3600000 ms. -/
theorem freshness_boundary_stale_witness :
    fetchExchangeRate "USD" "CNY" 3600000 sampleCache (fun _ => ProviderOutcome.err)
      = resolveViaProviders (pairKey "USD" "CNY")
          (some ⟨RateVal.num 7, 0, "open.er-api.com"⟩) 3600000 sampleCache
          (fun _ => ProviderOutcome.err) :=
  freshness_boundary_stale "USD" "CNY" 3600000 sampleCache
    (fun _ => ProviderOutcome.err) ⟨RateVal.num 7, 0, "open.er-api.com"⟩
    rfl (by decide)

/-- The end-to-end scenario: the first provider times out, the later ones
answer with the rate 7.1999 for the requested currency. -/
def scenarioRespond : String → ProviderOutcome :=
  fun a =>
    if a = "exchangerate-api.com" then ProviderOutcome.err
    else ProviderOutcome.parsed (some (RateVal.num (71999/10000)))

/-- Core of the fallback path, shared by several statements below: with no
fresh cache entry, when every provider listed before `api` fails and `api`
answers with an accepted value `v`, the call returns the rounded rate
under the name of `api` and writes exactly that entry to the cache. -/
lemma fetchFirstSuccess (fromCur toCur : String) (now : ℤ)
    (cache : Cache) (respond : String → ProviderOutcome)
    (pre post : List String) (api : String) (v : RateVal)
    (hsplit : EXCHANGE_RATE_APIS = pre ++ api :: post)
    (hnofresh : ∀ c, cache (pairKey fromCur toCur) = some c →
        cacheDuration ≤ now - c.timestamp)
    (hpre : ∀ a ∈ pre, failsOutcome (respond a) = true)
    (hapi : respond api = ProviderOutcome.parsed (some v))
    (hacc : accepts (some v) = true) :
    fetchExchangeRate fromCur toCur now cache respond
      = (ResolveResult.ok ⟨roundTo4 v, now, api, false⟩,
          updateCache cache (pairKey fromCur toCur) ⟨roundTo4 v, now, api⟩) := by
  have htry : tryProviders respond EXCHANGE_RATE_APIS = some (roundTo4 v, api) := by
    rw [hsplit, tryProviders_append_of_fails respond pre _ hpre,
      tryProviders_cons_accept respond api post v hapi hacc]
  cases hc : cache (pairKey fromCur toCur) with
  | none => simp [fetchExchangeRate, hc, resolveViaProviders, htry]
  | some c =>
    have hnotlt : ¬(now - c.timestamp < cacheDuration) :=
      not_lt.mpr (hnofresh c hc)
    simp [fetchExchangeRate, hc, hnotlt, resolveViaProviders, htry]

/-- C2: with no fresh cache entry, providers are tried in declared order;
every preceding provider whose attempt fails (error or rejected rate) is
skipped, the first provider with an accepted rate determines the returned
rate and source, and the providers after it play no role (the statement
holds for every `post` and every behaviour of `respond` on it). -/
theorem fallback_order_first_success (fromCur toCur : String) (now : ℤ)
    (cache : Cache) (respond : String → ProviderOutcome)
    (pre post : List String) (api : String) (v : RateVal)
    (hsplit : EXCHANGE_RATE_APIS = pre ++ api :: post)
    (hnofresh : ∀ c, cache (pairKey fromCur toCur) = some c →
        cacheDuration ≤ now - c.timestamp)
    (hpre : ∀ a ∈ pre, failsOutcome (respond a) = true)
    (hapi : respond api = ProviderOutcome.parsed (some v))
    (hacc : accepts (some v) = true) :
    fetchExchangeRate fromCur toCur now cache respond
      = (ResolveResult.ok ⟨roundTo4 v, now, api, false⟩,
          updateCache cache (pairKey fromCur toCur) ⟨roundTo4 v, now, api⟩) :=
  fetchFirstSuccess fromCur toCur now cache respond pre post api v
    hsplit hnofresh hpre hapi hacc

/-- Witness for `fallback_order_first_success`: the spec scenario — empty
cache, provider 1 errors, provider 2 returns 7.1999. -/
theorem fallback_order_first_success_witness :
    fetchExchangeRate "USD" "CNY" 5 emptyCache scenarioRespond
      = (ResolveResult.ok
          ⟨roundTo4 (RateVal.num (71999/10000)), 5, "open.er-api.com", false⟩,
        updateCache emptyCache (pairKey "USD" "CNY")
          ⟨roundTo4 (RateVal.num (71999/10000)), 5, "open.er-api.com"⟩) :=
  fallback_order_first_success "USD" "CNY" 5 emptyCache scenarioRespond
    ["exchangerate-api.com"] ["api.frankfurter.app"] "open.er-api.com"
    (RateVal.num (71999/10000)) rfl
    (fun c hc => Option.noConfusion hc)
    (by decide) rfl (by norm_num [accepts, truthy, gtZero])

/-- C4: when the provider loop runs (the entry being stale, of arbitrary
age beyond the window) and every provider fails, the existing entry is
returned unchanged with `fromCache: true`; and conversely a result with
`fromCache: true` can only arise that way: from the stored entry of the
pair, an entry at least one hour old, with every provider failing. -/
theorem degraded_cache_fallback (fromCur toCur : String) (now : ℤ)
    (cache : Cache) (respond : String → ProviderOutcome) (c : CacheEntry)
    (hc : cache (pairKey fromCur toCur) = some c)
    (hstale : cacheDuration ≤ now - c.timestamp)
    (hfail : ∀ a ∈ EXCHANGE_RATE_APIS, failsOutcome (respond a) = true) :
    (fetchExchangeRate fromCur toCur now cache respond
      = (ResolveResult.ok ⟨c.rate, c.timestamp, c.source, true⟩, cache))
    ∧ (∀ (cache₂ : Cache) (respond₂ : String → ProviderOutcome) (r : FetchResult),
        (fetchExchangeRate fromCur toCur now cache₂ respond₂).1
          = ResolveResult.ok r →
        r.fromCache = true →
        ∃ c₂, cache₂ (pairKey fromCur toCur) = some c₂
          ∧ r = ⟨c₂.rate, c₂.timestamp, c₂.source, true⟩
          ∧ cacheDuration ≤ now - c₂.timestamp
          ∧ ∀ a ∈ EXCHANGE_RATE_APIS, failsOutcome (respond₂ a) = true) := by
  constructor
  · have htry : tryProviders respond EXCHANGE_RATE_APIS = none :=
      (tryProviders_eq_none_iff respond EXCHANGE_RATE_APIS).mpr hfail
    have hnotlt : ¬(now - c.timestamp < cacheDuration) := not_lt.mpr hstale
    simp [fetchExchangeRate, hc, hnotlt, resolveViaProviders, htry]
  · intro cache₂ respond₂ r hr hflag
    cases hc₂ : cache₂ (pairKey fromCur toCur) with
    | none =>
      exfalso
      simp only [fetchExchangeRate, hc₂, resolveViaProviders] at hr
      cases htry : tryProviders respond₂ EXCHANGE_RATE_APIS with
      | some p =>
        obtain ⟨v, apiName⟩ := p
        rw [htry] at hr
        injection hr with hr2
        subst hr2
        simp at hflag
      | none =>
        rw [htry] at hr
        exact ResolveResult.noConfusion hr
    | some c₂ =>
      simp only [fetchExchangeRate, hc₂, resolveViaProviders] at hr
      by_cases hfresh : now - c₂.timestamp < cacheDuration
      · exfalso
        rw [if_pos hfresh] at hr
        injection hr with hr2
        subst hr2
        simp at hflag
      · rw [if_neg hfresh] at hr
        cases htry : tryProviders respond₂ EXCHANGE_RATE_APIS with
        | some p =>
          exfalso
          obtain ⟨v, apiName⟩ := p
          rw [htry] at hr
          injection hr with hr2
          subst hr2
          simp at hflag
        | none =>
          rw [htry] at hr
          injection hr with hr2
          refine ⟨c₂, rfl, hr2.symm, not_lt.mp hfresh,
            (tryProviders_eq_none_iff respond₂ EXCHANGE_RATE_APIS).mp htry⟩

/-- Witness for `degraded_cache_fallback`: stale entry (age two hours),
every provider erroring. -/
theorem degraded_cache_fallback_witness :
    fetchExchangeRate "USD" "CNY" 7200000 sampleCache (fun _ => ProviderOutcome.err)
      = (ResolveResult.ok ⟨RateVal.num 7, 0, "open.er-api.com", true⟩, sampleCache) :=
  (degraded_cache_fallback "USD" "CNY" 7200000 sampleCache
    (fun _ => ProviderOutcome.err) ⟨RateVal.num 7, 0, "open.er-api.com"⟩
    rfl (by decide) (by decide)).1

/-- C5: the NoRateAvailable throw happens exactly when no cache entry
exists for the pair and every provider fails; on every other input the
call returns a result. -/
theorem hard_failure_iff (fromCur toCur : String) (now : ℤ) (cache : Cache)
    (respond : String → ProviderOutcome) :
    (fetchExchangeRate fromCur toCur now cache respond).1 = ResolveResult.noRate
    ↔ cache (pairKey fromCur toCur) = none
      ∧ ∀ a ∈ EXCHANGE_RATE_APIS, failsOutcome (respond a) = true := by
  cases hc : cache (pairKey fromCur toCur) with
  | none =>
    cases htry : tryProviders respond EXCHANGE_RATE_APIS with
    | some p =>
      obtain ⟨v, apiName⟩ := p
      have hnotall : ¬∀ a ∈ EXCHANGE_RATE_APIS, failsOutcome (respond a) = true := by
        intro hfail
        rw [(tryProviders_eq_none_iff respond EXCHANGE_RATE_APIS).mpr hfail]
          at htry
        exact Option.noConfusion htry
      have hlhs : (fetchExchangeRate fromCur toCur now cache respond).1
          ≠ ResolveResult.noRate := by
        simp [fetchExchangeRate, hc, resolveViaProviders, htry]
      exact iff_of_false hlhs (fun h => hnotall h.2)
    | none =>
      have hlhs : (fetchExchangeRate fromCur toCur now cache respond).1
          = ResolveResult.noRate := by
        simp [fetchExchangeRate, hc, resolveViaProviders, htry]
      exact iff_of_true hlhs
        ⟨rfl, (tryProviders_eq_none_iff respond EXCHANGE_RATE_APIS).mp htry⟩
  | some c =>
    have hrhs : ¬((some c : Option CacheEntry) = none
        ∧ ∀ a ∈ EXCHANGE_RATE_APIS, failsOutcome (respond a) = true) := by
      rintro ⟨hnone, -⟩
      exact Option.noConfusion hnone
    have hlhs : (fetchExchangeRate fromCur toCur now cache respond).1
        ≠ ResolveResult.noRate := by
      by_cases hfresh : now - c.timestamp < cacheDuration
      · simp [fetchExchangeRate, hc, hfresh]
      · simp only [fetchExchangeRate, hc, if_neg hfresh, resolveViaProviders]
        cases htry : tryProviders respond EXCHANGE_RATE_APIS with
        | some p =>
          obtain ⟨v, apiName⟩ := p
          simp
        | none => simp
    exact iff_of_false hlhs hrhs

/-- C6: an accepted finite provider rate `q` is stored in the cache and
returned to the caller as `parseFloat(q.toFixed(4))`, i.e. rounded to
exactly 4 decimal places (ties toward the larger value, as `toFixed`
specifies). -/
theorem rate_rounded_to_4_decimals (fromCur toCur : String) (now : ℤ)
    (cache : Cache) (respond : String → ProviderOutcome)
    (pre post : List String) (api : String) (q : ℚ)
    (hsplit : EXCHANGE_RATE_APIS = pre ++ api :: post)
    (hnofresh : ∀ c, cache (pairKey fromCur toCur) = some c →
        cacheDuration ≤ now - c.timestamp)
    (hpre : ∀ a ∈ pre, failsOutcome (respond a) = true)
    (hapi : respond api = ProviderOutcome.parsed (some (RateVal.num q)))
    (hq : 0 < q) :
    (fetchExchangeRate fromCur toCur now cache respond).1
      = ResolveResult.ok
          ⟨RateVal.num ((⌊q * 10000 + 1/2⌋ : ℤ) / 10000), now, api, false⟩
    ∧ (fetchExchangeRate fromCur toCur now cache respond).2
        (pairKey fromCur toCur)
      = some ⟨RateVal.num ((⌊q * 10000 + 1/2⌋ : ℤ) / 10000), now, api⟩ := by
  have hacc : accepts (some (RateVal.num q)) = true := by
    simp [accepts, truthy, gtZero, hq, ne_of_gt hq]
  have h := fetchFirstSuccess fromCur toCur now cache respond pre post api
    (RateVal.num q) hsplit hnofresh hpre hapi hacc
  constructor
  · rw [h]
    rfl
  · rw [h]
    simp [updateCache, roundTo4]


/-- Witness for `rate_rounded_to_4_decimals`: the spec example — the
provider returns 7.23456789, the stored and returned rate is 7.2346. -/
theorem rate_rounded_to_4_decimals_witness :
    (fetchExchangeRate "USD" "CNY" 5 emptyCache
        (fun _ => ProviderOutcome.parsed
          (some (RateVal.num (723456789/100000000))))).1
      = ResolveResult.ok
          ⟨RateVal.num (72346/10000), 5, "exchangerate-api.com", false⟩
    ∧ (fetchExchangeRate "USD" "CNY" 5 emptyCache
        (fun _ => ProviderOutcome.parsed
          (some (RateVal.num (723456789/100000000))))).2
        (pairKey "USD" "CNY")
      = some ⟨RateVal.num (72346/10000), 5, "exchangerate-api.com"⟩ := by
  have h := rate_rounded_to_4_decimals "USD" "CNY" 5 emptyCache
    (fun _ => ProviderOutcome.parsed
      (some (RateVal.num (723456789/100000000))))
    [] ["open.er-api.com", "api.frankfurter.app"] "exchangerate-api.com"
    (723456789/100000000) rfl (fun c hc => Option.noConfusion hc)
    (by simp) rfl (by norm_num)
  have hfloor : ⌊(723456789/100000000 : ℚ) * 10000 + 1/2⌋ = (72346 : ℤ) := by
    rw [Int.floor_eq_iff]
    constructor <;> norm_num
  rw [hfloor] at h
  norm_num at h ⊢
  exact h

/-- C7: the cache is mutated only on provider success: the handler leaves
it unchanged on the identity (and unsupported-code) path, and the
resolver leaves it unchanged on a fresh cache hit and whenever every
provider fails (which covers the degraded-fallback and hard-failure
paths). -/
theorem cache_unchanged_off_success (qFrom qTo : Option String) (now : ℤ)
    (cache : Cache) (respond : String → ProviderOutcome) :
    (qFrom.getD "USD" = qTo.getD "CNY" →
      (handleExchangeRate qFrom qTo now cache respond).2 = cache)
    ∧ (∀ fromCur toCur c, cache (pairKey fromCur toCur) = some c →
        now - c.timestamp < cacheDuration →
        (fetchExchangeRate fromCur toCur now cache respond).2 = cache)
    ∧ ((∀ a ∈ EXCHANGE_RATE_APIS, failsOutcome (respond a) = true) →
        ∀ fromCur toCur,
          (fetchExchangeRate fromCur toCur now cache respond).2 = cache) := by
  refine ⟨?_, ?_, ?_⟩
  · intro heq
    simp only [handleExchangeRate]
    by_cases hsup : (!(supportedCurrencies.contains (qFrom.getD "USD"))
        || !(supportedCurrencies.contains (qTo.getD "CNY"))) = true
    · rw [if_pos hsup]
    · rw [if_neg hsup, if_pos heq]
  · intro fromCur toCur c hc hfresh
    simp [fetchExchangeRate, hc, hfresh]
  · intro hfail fromCur toCur
    have htry : tryProviders respond EXCHANGE_RATE_APIS = none :=
      (tryProviders_eq_none_iff respond EXCHANGE_RATE_APIS).mpr hfail
    cases hc : cache (pairKey fromCur toCur) with
    | none => simp [fetchExchangeRate, hc, resolveViaProviders, htry]
    | some c =>
      by_cases hfresh : now - c.timestamp < cacheDuration
      · simp [fetchExchangeRate, hc, hfresh]
      · simp [fetchExchangeRate, hc, hfresh, resolveViaProviders, htry]

/-- Witness for `cache_unchanged_off_success`: the identity pair, a fresh
hit with healthy providers, and the hard-failure call, each leaving the
cache as it was. -/
theorem cache_unchanged_off_success_witness :
    (handleExchangeRate (some "USD") (some "USD") 0 emptyCache
        (fun _ => ProviderOutcome.err)).2 = emptyCache
    ∧ (fetchExchangeRate "USD" "CNY" 1 sampleCache scenarioRespond).2
        = sampleCache
    ∧ (fetchExchangeRate "USD" "CNY" 0 emptyCache
        (fun _ => ProviderOutcome.err)).2 = emptyCache :=
  ⟨(cache_unchanged_off_success (some "USD") (some "USD") 0 emptyCache
      (fun _ => ProviderOutcome.err)).1 rfl,
   (cache_unchanged_off_success none none 1 sampleCache scenarioRespond).2.1
      "USD" "CNY" ⟨RateVal.num 7, 0, "open.er-api.com"⟩ rfl (by decide),
   (cache_unchanged_off_success none none 0 emptyCache
      (fun _ => ProviderOutcome.err)).2.2 (by decide) "USD" "CNY"⟩

/-- The cache after a call is either untouched or carries exactly the
newly accepted entry at the pair key. -/
lemma fetch_snd_eq_or_update (fromCur toCur : String) (now : ℤ)
    (cache : Cache) (respond : String → ProviderOutcome) :
    (fetchExchangeRate fromCur toCur now cache respond).2 = cache
    ∨ ∃ v apiName,
        (fetchExchangeRate fromCur toCur now cache respond).2
          = updateCache cache (pairKey fromCur toCur) ⟨v, now, apiName⟩ := by
  cases hc : cache (pairKey fromCur toCur) with
  | none =>
    cases htry : tryProviders respond EXCHANGE_RATE_APIS with
    | some p =>
      obtain ⟨v, apiName⟩ := p
      exact Or.inr ⟨v, apiName,
        by simp [fetchExchangeRate, hc, resolveViaProviders, htry]⟩
    | none =>
      exact Or.inl (by simp [fetchExchangeRate, hc, resolveViaProviders, htry])
  | some c =>
    by_cases hfresh : now - c.timestamp < cacheDuration
    · exact Or.inl (by simp [fetchExchangeRate, hc, hfresh])
    · cases htry : tryProviders respond EXCHANGE_RATE_APIS with
      | some p =>
        obtain ⟨v, apiName⟩ := p
        exact Or.inr ⟨v, apiName,
          by simp [fetchExchangeRate, hc, hfresh, resolveViaProviders, htry]⟩
      | none =>
        exact Or.inl
          (by simp [fetchExchangeRate, hc, hfresh, resolveViaProviders, htry])

/-- C8: writes carry the current call time, so under the clock assumption
that the stored entry is not from the future, the entry present after a
call is at least as recent as the one before it (monotonicity of
`fetchedAt` across successive writes), and any change to the cache is a
whole-entry replacement at the pair key stamped with the current time
(at most one entry per key, last write wins). -/
theorem cache_timestamp_monotone (fromCur toCur : String) (now : ℤ)
    (cache : Cache) (respond : String → ProviderOutcome) (k : String)
    (hclock : ∀ e, cache k = some e → e.timestamp ≤ now) :
    (∀ e', (fetchExchangeRate fromCur toCur now cache respond).2 k = some e' →
        e'.timestamp ≤ now
        ∧ ∀ e, cache k = some e → e.timestamp ≤ e'.timestamp)
    ∧ ((fetchExchangeRate fromCur toCur now cache respond).2 k = cache k
        ∨ ∃ v apiName,
            (fetchExchangeRate fromCur toCur now cache respond).2 k
              = some ⟨v, now, apiName⟩) := by
  rcases fetch_snd_eq_or_update fromCur toCur now cache respond with
    h | ⟨v, apiName, h⟩
  · constructor
    · intro e' he'
      rw [h] at he'
      refine ⟨hclock e' he', ?_⟩
      intro e he
      rw [he] at he'
      injection he' with h2
      rw [h2]
    · exact Or.inl (by rw [h])
  · by_cases hk : k = pairKey fromCur toCur
    · have hsnd : (fetchExchangeRate fromCur toCur now cache respond).2 k
          = some ⟨v, now, apiName⟩ := by
        rw [h, updateCache, if_pos hk]
      constructor
      · intro e' he'
        rw [hsnd] at he'
        injection he' with h2
        constructor
        · rw [← h2]
        · intro e he
          rw [← h2]
          exact hclock e he
      · exact Or.inr ⟨v, apiName, hsnd⟩
    · have hsnd : (fetchExchangeRate fromCur toCur now cache respond).2 k
          = cache k := by
        rw [h, updateCache, if_neg hk]
      constructor
      · intro e' he'
        rw [hsnd] at he'
        refine ⟨hclock e' he', ?_⟩
        intro e he
        rw [he] at he'
        injection he' with h2
        rw [h2]
      · exact Or.inl hsnd

/-- Witness for `cache_timestamp_monotone`: a call two milliseconds after
the stored entry was written. -/
theorem cache_timestamp_monotone_witness :
    (∀ e', (fetchExchangeRate "USD" "CNY" 2 sampleCache
        (fun _ => ProviderOutcome.err)).2 "USD-CNY" = some e' →
        e'.timestamp ≤ 2
        ∧ ∀ e, sampleCache "USD-CNY" = some e → e.timestamp ≤ e'.timestamp)
    ∧ ((fetchExchangeRate "USD" "CNY" 2 sampleCache
          (fun _ => ProviderOutcome.err)).2 "USD-CNY" = sampleCache "USD-CNY"
        ∨ ∃ v apiName,
            (fetchExchangeRate "USD" "CNY" 2 sampleCache
              (fun _ => ProviderOutcome.err)).2 "USD-CNY"
              = some ⟨v, 2, apiName⟩) :=
  cache_timestamp_monotone "USD" "CNY" 2 sampleCache
    (fun _ => ProviderOutcome.err) "USD-CNY"
    (fun e he => by
      rw [show sampleCache "USD-CNY"
          = some ⟨RateVal.num 7, 0, "open.er-api.com"⟩ from rfl] at he
      injection he with h2
      rw [← h2]
      decide)

/-- C10: with both query parameters absent, the handler resolves the pair
USD-CNY: the defaulted codes are supported (no 400), they differ (no
identity shortcut), and the response is built from
`fetchExchangeRate USD CNY` — its success as a 200 payload, its throw as
a 500. -/
theorem default_pair_usd_cny (now : ℤ) (cache : Cache)
    (respond : String → ProviderOutcome) :
    (handleExchangeRate none none now cache respond).1 ≠ HttpResponse.badRequest
    ∧ (∀ r cache', fetchExchangeRate "USD" "CNY" now cache respond
          = (ResolveResult.ok r, cache') →
        handleExchangeRate none none now cache respond
          = (HttpResponse.okData "USD" "CNY" r, cache'))
    ∧ (∀ cache', fetchExchangeRate "USD" "CNY" now cache respond
          = (ResolveResult.noRate, cache') →
        handleExchangeRate none none now cache respond
          = (HttpResponse.serverError, cache')) := by
  refine ⟨?_, ?_, ?_⟩
  · cases hf : fetchExchangeRate "USD" "CNY" now cache respond with
    | mk res cache' =>
      cases res with
      | ok r =>
        simp only [handleExchangeRate, Option.getD]
        rw [if_neg (by decide), if_neg (by decide), hf]
        simp
      | noRate =>
        simp only [handleExchangeRate, Option.getD]
        rw [if_neg (by decide), if_neg (by decide), hf]
        simp
  · intro r cache' hf
    simp only [handleExchangeRate, Option.getD]
    rw [if_neg (by decide), if_neg (by decide), hf]
  · intro cache' hf
    simp only [handleExchangeRate, Option.getD]
    rw [if_neg (by decide), if_neg (by decide), hf]

/-- Witness for `default_pair_usd_cny`: a parameterless request against an
empty cache, once with a healthy first provider (200 with the USD-CNY
rate) and once with all providers down (500). -/
theorem default_pair_usd_cny_witness :
    handleExchangeRate none none 0 emptyCache
        (fun _ => ProviderOutcome.parsed (some (RateVal.num 7)))
      = (HttpResponse.okData "USD" "CNY"
          ⟨roundTo4 (RateVal.num 7), 0, "exchangerate-api.com", false⟩,
        updateCache emptyCache (pairKey "USD" "CNY")
          ⟨roundTo4 (RateVal.num 7), 0, "exchangerate-api.com"⟩)
    ∧ handleExchangeRate none none 0 emptyCache (fun _ => ProviderOutcome.err)
      = (HttpResponse.serverError, emptyCache) :=
  ⟨(default_pair_usd_cny 0 emptyCache
      (fun _ => ProviderOutcome.parsed (some (RateVal.num 7)))).2.1
      ⟨roundTo4 (RateVal.num 7), 0, "exchangerate-api.com", false⟩
      (updateCache emptyCache (pairKey "USD" "CNY")
        ⟨roundTo4 (RateVal.num 7), 0, "exchangerate-api.com"⟩) rfl,
   (default_pair_usd_cny 0 emptyCache (fun _ => ProviderOutcome.err)).2.2
      emptyCache rfl⟩

example : accepts (some .inf) = true := by decide
example : accepts (some .nan) = false := by decide
example : accepts (some (.num (-3))) = false := by decide
example : accepts (some (.num 0)) = false := by decide
example : accepts none = false := by decide
example : roundTo4 (.num (723456789/100000000)) = .num (72346/10000) := by
  norm_num [roundTo4]

end Server
